import Mathlib

/-
Verification development for the shiny-potato tool (src/main.go).

The tool deploys or cleans N pairs of Kubernetes resources, each pair one
PersistentVolumeClaim (Pvc) and one Pod sharing a generated name.  Each
resource runs a two-step workflow in its own goroutine (Create then
WaitCreate, or Delete then WaitDelete), reporting step errors on an error
channel and exactly one completion on a done channel.  The main goroutine
drains the channels, tolerating AlreadyExists errors on deploy and NotFound
errors on clean, and panicking on any other error.

Modelling conventions:
  - Machine time is modelled as Nat.  Each poll attempt carries the clock
    instant observed during that attempt; the two adjacent clock reads in
    the success branch of a wait condition (time.Now for Timings.End and
    time.Since for Timings.Duration) are coarsened to that single instant.
  - The Kubernetes client is an oracle: Create and Delete take the backend
    response as a parameter, and each wait takes the finite list of poll
    attempts that the backend answers before the poll deadline elapses;
    exhausting the list models wait.PollImmediate reaching its timeout and
    returning ErrWaitTimeout (deadlineExceeded below).
  - The Go Duration string is modelled by its numeric value; the Option in
    the End and Duration fields tracks whether the field has been written
    (the Go zero value of those fields).
-/

/-- Classification of errors visible to the tool, mirroring the cases the
code distinguishes via k8serr.IsAlreadyExists, k8serr.IsNotFound, the
generic backend error case, and wait.ErrWaitTimeout. -/
inductive K8sErr where
  | alreadyExists
  | notFound
  | backend
  | deadlineExceeded
deriving DecidableEq, Repr

/-- Embedding of k8serr.IsAlreadyExists as used in the drain loop. -/
def isAlreadyExists : K8sErr → Bool
  | K8sErr.alreadyExists => true
  | _ => false

/-- Embedding of k8serr.IsNotFound as used in the drain loop and in the
WaitDelete conditions. -/
def isNotFound : K8sErr → Bool
  | K8sErr.notFound => true
  | _ => false

/-- Timing record of a resource (struct Timing in main.go).  Start is a
plain timestamp because the code overwrites it unconditionally; End and
Duration are Option because the code writes them only in the success
branch of a wait. -/
structure Timing where
  start : Nat := 0
  stop : Option Nat := none
  duration : Option Nat := none
deriving DecidableEq, Repr

/-- The Pvc resource record (struct Pvc in main.go).  The ClientSet field
is replaced by the backend oracle parameters of each operation. -/
structure Pvc where
  name : String
  ns : String
  size : String
  storageClass : String
  timings : Timing := {}
deriving DecidableEq, Repr

/-- The Pod resource record (struct Pod in main.go). -/
structure Pod where
  name : String
  ns : String
  image : String
  timings : Timing := {}
deriving DecidableEq, Repr

/-- Phase reported by a PersistentVolumeClaim status fetch. -/
inductive PvcPhase where
  | pending
  | bound
  | lost
deriving DecidableEq, Repr

/-- Pod condition types inspected by Pod.WaitCreate. -/
inductive PodCondType where
  | ready
  | scheduled
  | inited
  | containersReady
deriving DecidableEq, Repr

/-- Pod condition status values. -/
inductive CondStatus where
  | conditionTrue
  | conditionFalse
  | conditionUnknown
deriving DecidableEq, Repr

/-- One entry of pod.Status.Conditions. -/
structure PodCondition where
  condType : PodCondType
  status : CondStatus
deriving DecidableEq, Repr

/-- A Ready condition with status True, the success test of
Pod.WaitCreate. -/
def readyTrue (c : PodCondition) : Bool :=
  match c.condType, c.status with
  | PodCondType.ready, CondStatus.conditionTrue => true
  | _, _ => false

/-- Embedding of wait.PollImmediate: the condition is evaluated on each
attempt in the list; a condition error is returned at once, a done
condition ends the poll successfully, otherwise polling continues; the
list running out models the timeout elapsing, which PollImmediate reports
as ErrWaitTimeout. -/
def pollList {σ α : Type} (cond : σ → α → σ × Bool × Option K8sErr) :
    σ → List α → σ × Option K8sErr
  | s, [] => (s, some K8sErr.deadlineExceeded)
  | s, a :: rest =>
    let r := cond s a
    match r.2.2 with
    | some e => (r.1, some e)
    | none => if r.2.1 then (r.1, none) else pollList cond r.1 rest

/-- Pvc.Create: stamps Timings.Start, then issues the backend create call
and returns its error unchanged. -/
def Pvc.create (p : Pvc) (now : Nat) (resp : Except K8sErr Unit) :
    Pvc × Option K8sErr :=
  let p1 := { p with timings := { p.timings with start := now } }
  match resp with
  | Except.error e => (p1, some e)
  | Except.ok _ => (p1, none)

/-- Pvc.Delete: stamps Timings.Start, then issues the backend delete call
and returns its error unchanged (there is no IsNotFound filter here). -/
def Pvc.delete (p : Pvc) (now : Nat) (resp : Except K8sErr Unit) :
    Pvc × Option K8sErr :=
  let p1 := { p with timings := { p.timings with start := now } }
  match resp with
  | Except.error e => (p1, some e)
  | Except.ok _ => (p1, none)

/-- Pod.Create: stamps Timings.Start, then issues the backend create call
and returns its error unchanged. -/
def Pod.create (p : Pod) (now : Nat) (resp : Except K8sErr Unit) :
    Pod × Option K8sErr :=
  let p1 := { p with timings := { p.timings with start := now } }
  match resp with
  | Except.error e => (p1, some e)
  | Except.ok _ => (p1, none)

/-- Pod.Delete: stamps Timings.Start, then issues the backend delete call
and returns its error unchanged (no IsNotFound filter). -/
def Pod.delete (p : Pod) (now : Nat) (resp : Except K8sErr Unit) :
    Pod × Option K8sErr :=
  let p1 := { p with timings := { p.timings with start := now } }
  match resp with
  | Except.error e => (p1, some e)
  | Except.ok _ => (p1, none)

/-- Poll condition of Pvc.WaitCreate: a Get error is returned, a Bound
phase stamps End and Duration and succeeds, anything else keeps
polling.  The attempt carries the clock instant and the Get result. -/
def pvcWaitCreateCond (p : Pvc) (a : Nat × Except K8sErr PvcPhase) :
    Pvc × Bool × Option K8sErr :=
  match a.2 with
  | Except.error e => (p, false, some e)
  | Except.ok ph =>
    if ph = PvcPhase.bound then
      ({ p with timings :=
          { start := p.timings.start, stop := some a.1,
            duration := some (a.1 - p.timings.start) } }, true, none)
    else (p, false, none)

/-- Pvc.WaitCreate: PollImmediate over the bound-phase condition. -/
def Pvc.waitCreate (p : Pvc) (attempts : List (Nat × Except K8sErr PvcPhase)) :
    Pvc × Option K8sErr :=
  pollList pvcWaitCreateCond p attempts

/-- Poll condition of Pvc.WaitDelete: a NotFound Get error stamps End and
Duration and succeeds; otherwise the Get error (possibly nil, modelled as
none) is returned with done = false, so a nil error keeps polling and any
other error is propagated. -/
def pvcWaitDeleteCond (p : Pvc) (a : Nat × Option K8sErr) :
    Pvc × Bool × Option K8sErr :=
  match a.2 with
  | some e =>
    if isNotFound e then
      ({ p with timings :=
          { start := p.timings.start, stop := some a.1,
            duration := some (a.1 - p.timings.start) } }, true, none)
    else (p, false, some e)
  | none => (p, false, none)

/-- Pvc.WaitDelete: PollImmediate over the not-found condition. -/
def Pvc.waitDelete (p : Pvc) (attempts : List (Nat × Option K8sErr)) :
    Pvc × Option K8sErr :=
  pollList pvcWaitDeleteCond p attempts

/-- Poll condition of Pod.WaitCreate: a Get error is returned; the
conditions list succeeding means some Ready condition has status True,
which stamps End and Duration; otherwise polling continues. -/
def podWaitCreateCond (p : Pod) (a : Nat × Except K8sErr (List PodCondition)) :
    Pod × Bool × Option K8sErr :=
  match a.2 with
  | Except.error e => (p, false, some e)
  | Except.ok conds =>
    if conds.any readyTrue then
      ({ p with timings :=
          { start := p.timings.start, stop := some a.1,
            duration := some (a.1 - p.timings.start) } }, true, none)
    else (p, false, none)

/-- Pod.WaitCreate: PollImmediate over the ready-condition test. -/
def Pod.waitCreate (p : Pod) (attempts : List (Nat × Except K8sErr (List PodCondition))) :
    Pod × Option K8sErr :=
  pollList podWaitCreateCond p attempts

/-- Poll condition of Pod.WaitDelete, same shape as Pvc.WaitDelete. -/
def podWaitDeleteCond (p : Pod) (a : Nat × Option K8sErr) :
    Pod × Bool × Option K8sErr :=
  match a.2 with
  | some e =>
    if isNotFound e then
      ({ p with timings :=
          { start := p.timings.start, stop := some a.1,
            duration := some (a.1 - p.timings.start) } }, true, none)
    else (p, false, some e)
  | none => (p, false, none)

/-- Pod.WaitDelete: PollImmediate over the not-found condition. -/
def Pod.waitDelete (p : Pod) (attempts : List (Nat × Option K8sErr)) :
    Pod × Option K8sErr :=
  pollList podWaitDeleteCond p attempts

example : (Pvc.waitCreate { name := "a", ns := "d", size := "100m", storageClass := "sc" }
    [(3, Except.ok PvcPhase.pending), (9, Except.ok PvcPhase.bound)]).2 = none := by decide

example : (Pvc.waitCreate { name := "a", ns := "d", size := "100m", storageClass := "sc" }
    [(3, Except.error K8sErr.backend)]).2 = some K8sErr.backend := by decide

/-- Signals a workflow goroutine emits: an error on the error channel, or
the single completion on the done channel. -/
inductive Sig where
  | err (e : K8sErr)
  | done
deriving DecidableEq, Repr

/-- Signals sent for one workflow step: one error when the step failed,
nothing otherwise. -/
def errSignal : Option K8sErr → List Sig
  | some e => [Sig.err e]
  | none => []

/-- Signals emitted by the Deploy workflow: the Create error when present,
then the WaitCreate error when present, then exactly one done. -/
def deploySignals (errCreate errWait : Option K8sErr) : List Sig :=
  errSignal errCreate ++ errSignal errWait ++ [Sig.done]

/-- Signals emitted by the Clean workflow: the Delete error when present,
then the WaitDelete error when present, then exactly one done. -/
def cleanSignals (errDelete errWait : Option K8sErr) : List Sig :=
  errSignal errDelete ++ errSignal errWait ++ [Sig.done]

/-- The Deploy workflow instantiated at a Pvc: Create, then WaitCreate,
emitting the channel signals of both steps. -/
def deployPvc (p : Pvc) (now : Nat) (createResp : Except K8sErr Unit)
    (attempts : List (Nat × Except K8sErr PvcPhase)) : Pvc × List Sig :=
  let r1 := Pvc.create p now createResp
  let r2 := Pvc.waitCreate r1.1 attempts
  (r2.1, deploySignals r1.2 r2.2)

/-- The Clean workflow instantiated at a Pvc: Delete, then WaitDelete. -/
def cleanPvc (p : Pvc) (now : Nat) (deleteResp : Except K8sErr Unit)
    (attempts : List (Nat × Option K8sErr)) : Pvc × List Sig :=
  let r1 := Pvc.delete p now deleteResp
  let r2 := Pvc.waitDelete r1.1 attempts
  (r2.1, cleanSignals r1.2 r2.2)

/-- Number of done signals in a signal list. -/
def doneCount (l : List Sig) : Nat :=
  (l.filter fun s => match s with | Sig.done => true | Sig.err _ => false).length

/-- Number of error signals in a signal list. -/
def errCount (l : List Sig) : Nat :=
  (l.filter fun s => match s with | Sig.err _ => true | Sig.done => false).length

/-- One signal as received by the drain loop select, tagged with the
channel it arrives on. -/
inductive DrainSig where
  | deployErr (e : K8sErr)
  | cleanErr (e : K8sErr)
  | done
deriving DecidableEq, Repr

/-- Outcome of the drain loop on a given interleaving of channel signals,
recording how many done signals were counted: the loop breaks normally,
panics on an intolerable error, or blocks in select because no further
signal will ever arrive. -/
inductive DrainResult where
  | completed (dones : Nat)
  | panicked (e : K8sErr) (dones : Nat)
  | blocked (dones : Nat)
deriving DecidableEq, Repr

/-- The drain loop of main: select over the two error channels and the
done channel; a deploy error is absorbed unless it is not AlreadyExists,
a clean error is absorbed unless it is not NotFound, an intolerable error
panics at once; after every received signal the loop breaks when the done
counter equals count times 2.  The list is the sequence of signals that
will ever arrive; exhausting it leaves the select blocked forever. -/
def drainLoop (count : Nat) : Nat → List DrainSig → DrainResult
  | i, [] => DrainResult.blocked i
  | i, s :: rest =>
    match s with
    | DrainSig.deployErr e =>
      if isAlreadyExists e then
        (if i = count * 2 then DrainResult.completed i else drainLoop count i rest)
      else DrainResult.panicked e i
    | DrainSig.cleanErr e =>
      if isNotFound e then
        (if i = count * 2 then DrainResult.completed i else drainLoop count i rest)
      else DrainResult.panicked e i
    | DrainSig.done =>
      if i + 1 = count * 2 then DrainResult.completed (i + 1)
      else drainLoop count (i + 1) rest

/-- The drain loop as entered by main, with the done counter at zero. -/
def drain (count : Nat) (sigs : List DrainSig) : DrainResult :=
  drainLoop count 0 sigs

example : drain 1 [DrainSig.done, DrainSig.deployErr K8sErr.alreadyExists, DrainSig.done]
    = DrainResult.completed 2 := by decide

example : drain 1 [DrainSig.deployErr K8sErr.backend, DrainSig.done, DrainSig.done]
    = DrainResult.panicked K8sErr.backend 0 := by decide

example : drain 0 [] = DrainResult.blocked 0 := by decide

/-- Numeric value of a decimal digit character. -/
def charVal (c : Char) : Nat := c.toNat - 48

/-- Decimal digit characters of n, most significant first, by repeated
division; the first argument is recursion fuel, sufficient whenever it is
at least n. -/
def toDecAux : Nat → Nat → List Char
  | 0, _ => []
  | fuel + 1, n =>
    if n = 0 then [] else toDecAux fuel (n / 10) ++ [Nat.digitChar (n % 10)]

/-- Decimal representation of a natural number as characters, most
significant digit first (the digits fmt prints for an int). -/
def decRepr (n : Nat) : List Char :=
  if n = 0 then ['0'] else toDecAux n n

/-- The %04d format verb: the decimal representation left-padded with
zeros to a minimum width of four. -/
def pad4 (n : Nat) : String :=
  String.mk (List.replicate (4 - (decRepr n).length) '0' ++ decRepr n)

/-- Name synthesized for pair i in the launch loop of main, the Sprintf
of "%v-%04d" applied to the prefix and i. -/
def mkName (pfx : String) (i : Nat) : String :=
  pfx ++ "-" ++ pad4 i

example : mkName "shiny-potato" 1 = "shiny-potato-0001" := by decide
example : mkName "sp" 123 = "sp-0123" := by decide
example : mkName "sp" 54321 = "sp-54321" := by decide

/-- The Pvc record built for pair i in the launch loop. -/
def pairPvc (ns pfx size sc : String) (i : Nat) : Pvc :=
  { name := mkName pfx i, ns := ns, size := size, storageClass := sc }

/-- The Pod record built for pair i in the launch loop. -/
def pairPod (ns pfx image : String) (i : Nat) : Pod :=
  { name := mkName pfx i, ns := ns, image := image }

/-- The pvcs slice after the launch loop has run for pairs 1..n, appended
in loop order. -/
def pvcList (ns pfx size sc : String) : Nat → List Pvc
  | 0 => []
  | n + 1 => pvcList ns pfx size sc n ++ [pairPvc ns pfx size sc (n + 1)]

/-- The pods slice after the launch loop has run for pairs 1..n. -/
def podList (ns pfx image : String) : Nat → List Pod
  | 0 => []
  | n + 1 => podList ns pfx image n ++ [pairPod ns pfx image (n + 1)]

/-- Events of the launch loop: constructing the records of a pair, and the
two go statements launching the workflow of the pair resources (the flag
distinguishes the Pod launch from the Pvc launch).  Deploy mode and clean
mode launch at the same program points; the inter-pair jitter sleep does
not affect the event order and is not modelled. -/
inductive Ev where
  | build (pvc : Pvc) (pod : Pod)
  | go (isPod : Bool) (name : String)
deriving DecidableEq, Repr

/-- The three launch-loop events of iteration i: the pair records are
built, then the Pvc workflow and the Pod workflow are launched. -/
def pairEvents (ns pfx size sc image : String) (i : Nat) : List Ev :=
  [Ev.build (pairPvc ns pfx size sc i) (pairPod ns pfx image i),
   Ev.go false (mkName pfx i), Ev.go true (mkName pfx i)]

/-- Event trace of the launch loop over iterations 1..n, in program
order. -/
def launchTrace (ns pfx size sc image : String) : Nat → List Ev
  | 0 => []
  | n + 1 => launchTrace ns pfx size sc image n ++ pairEvents ns pfx size sc image (n + 1)

/-- Trace of launch-loop iterations i+1..i+m, used to name the suffix of
the trace that follows the events of pair i. -/
def traceTail (ns pfx size sc image : String) (i : Nat) : Nat → List Ev
  | 0 => []
  | m + 1 => traceTail ns pfx size sc image i m ++ pairEvents ns pfx size sc image (i + (m + 1))

/-- Names of pairs 1..n in launch order. -/
def nameList (pfx : String) : Nat → List String
  | 0 => []
  | n + 1 => nameList pfx n ++ [mkName pfx (n + 1)]

/-- Value of a big-endian digit list, defined on the reversed list. -/
def decodeDigits : List Nat → Nat
  | [] => 0
  | d :: rest => d + 10 * decodeDigits rest

/-- Value of a big-endian list of decimal digit characters. -/
def decodeNat (l : List Char) : Nat :=
  decodeDigits ((l.map charVal).reverse)

lemma charVal_digitChar (d : Nat) (hd : d < 10) :
    charVal (Nat.digitChar d) = d := by
  interval_cases d <;> rfl

lemma decodeNat_append_singleton (xs : List Char) (c : Char) :
    decodeNat (xs ++ [c]) = charVal c + 10 * decodeNat xs := by
  simp [decodeNat, decodeDigits]

lemma toDecAux_zero (fuel : Nat) : toDecAux fuel 0 = [] := by
  cases fuel <;> simp [toDecAux]

lemma decodeNat_toDecAux (fuel : Nat) :
    ∀ n : Nat, 0 < n → n ≤ fuel → decodeNat (toDecAux fuel n) = n := by
  induction fuel with
  | zero => intro n hn hle; omega
  | succ fuel ih =>
    intro n hn hle
    have hne : n ≠ 0 := Nat.pos_iff_ne_zero.mp hn
    have hmod : n % 10 < 10 := Nat.mod_lt _ (by norm_num)
    rw [toDecAux, if_neg hne, decodeNat_append_singleton, charVal_digitChar _ hmod]
    by_cases hq : n / 10 = 0
    · rw [hq, toDecAux_zero]
      have : decodeNat [] = 0 := rfl
      omega
    · have hlt : n / 10 < n := Nat.div_lt_self hn (by norm_num)
      rw [ih (n / 10) (Nat.pos_iff_ne_zero.mpr hq) (by omega)]
      omega

lemma decodeDigits_append_zeros (l : List Nat) (k : Nat) :
    decodeDigits (l ++ List.replicate k 0) = decodeDigits l := by
  induction l with
  | nil =>
    simp only [List.nil_append]
    induction k with
    | zero => rfl
    | succ k ihk => simpa [List.replicate_succ, decodeDigits] using ihk
  | cons d rest ihl => simp [decodeDigits, ihl]

lemma decodeNat_leading_zeros (xs : List Char) (k : Nat) :
    decodeNat (List.replicate k '0' ++ xs) = decodeNat xs := by
  have hmap : (List.replicate k '0').map charVal = List.replicate k 0 := by
    simp [List.map_replicate, charVal]
  simp only [decodeNat, List.map_append, hmap, List.reverse_append,
    List.reverse_replicate]
  exact decodeDigits_append_zeros _ k

lemma decodeNat_decRepr (n : Nat) : decodeNat (decRepr n) = n := by
  by_cases h : n = 0
  · subst h; rfl
  · rw [decRepr, if_neg h]
    exact decodeNat_toDecAux n n (Nat.pos_iff_ne_zero.mpr h) le_rfl

lemma decodeNat_pad4 (n : Nat) : decodeNat (pad4 n).data = n := by
  show decodeNat (List.replicate (4 - (decRepr n).length) '0' ++ decRepr n) = n
  rw [decodeNat_leading_zeros, decodeNat_decRepr]

lemma pad4_inj {a b : Nat} (h : pad4 a = pad4 b) : a = b := by
  have := decodeNat_pad4 a
  rw [h, decodeNat_pad4 b] at this
  omega

lemma mkName_inj (pfx : String) {a b : Nat} (h : mkName pfx a = mkName pfx b) :
    a = b := by
  have hdata : (mkName pfx a).data = (mkName pfx b).data := by rw [h]
  simp only [mkName] at hdata
  have hd2 : (pfx.data ++ "-".data) ++ (pad4 a).data
      = (pfx.data ++ "-".data) ++ (pad4 b).data := by
    simpa [String.data_append, List.append_assoc] using hdata
  have hpad : (pad4 a).data = (pad4 b).data := List.append_cancel_left hd2
  exact pad4_inj (congrArg String.mk hpad)

lemma pollList_cons {σ α : Type} (cond : σ → α → σ × Bool × Option K8sErr)
    (s : σ) (a : α) (rest : List α) :
    pollList cond s (a :: rest)
      = (match (cond s a).2.2 with
         | some e => ((cond s a).1, some e)
         | none =>
           if (cond s a).2.1 then ((cond s a).1, none)
           else pollList cond (cond s a).1 rest) := rfl

lemma pollList_skip {σ α : Type} (cond : σ → α → σ × Bool × Option K8sErr)
    (contP : α → Bool)
    (hcont : ∀ s a, contP a = true → cond s a = (s, false, none)) :
    ∀ (oks : List α) (s : σ) (rest : List α),
      (∀ a ∈ oks, contP a = true) →
      pollList cond s (oks ++ rest) = pollList cond s rest := by
  intro oks
  induction oks with
  | nil => intro s rest _; rfl
  | cons a oks ih =>
    intro s rest hall
    have ha := hcont s a (hall a (List.mem_cons_self a oks))
    rw [List.cons_append, pollList_cons, ha]
    exact ih s rest (fun b hb => hall b (List.mem_cons_of_mem a hb))

lemma pollList_frame {σ α : Type} (cond : σ → α → σ × Bool × Option K8sErr)
    (hframe : ∀ s a, (cond s a).2 ≠ (true, (none : Option K8sErr)) → (cond s a).1 = s) :
    ∀ (l : List α) (s s' : σ) (e : K8sErr),
      pollList cond s l = (s', some e) → s' = s := by
  intro l
  induction l with
  | nil =>
    intro s s' e h
    exact (Prod.mk.injEq _ _ _ _ ▸ h).1.symm
  | cons a rest ih =>
    intro s s' e h
    rw [pollList_cons] at h
    rcases he : (cond s a).2.2 with _ | e0
    · rw [he] at h
      by_cases hd : (cond s a).2.1
      · rw [if_pos hd] at h
        exact absurd (congrArg Prod.snd h) (by simp)
      · rw [if_neg hd] at h
        have hne : (cond s a).2 ≠ (true, (none : Option K8sErr)) := by
          intro hcontra
          exact hd (by rw [hcontra])
        rw [← hframe s a hne]
        exact ih (cond s a).1 s' e h
    · rw [he] at h
      have h1 : (cond s a).1 = s' := (Prod.mk.injEq _ _ _ _ ▸ h).1
      have hne : (cond s a).2 ≠ (true, (none : Option K8sErr)) := by
        intro hcontra
        rw [hcontra] at he
        exact Option.noConfusion he
      rw [← h1, hframe s a hne]

lemma pollList_success_mem {σ α : Type} (cond : σ → α → σ × Bool × Option K8sErr)
    (P : α → Prop) (hP : ∀ s a, (cond s a).2.1 = true → P a) :
    ∀ (l : List α) (s s' : σ),
      pollList cond s l = (s', none) → ∃ a, a ∈ l ∧ P a := by
  intro l
  induction l with
  | nil =>
    intro s s' h
    exact absurd (congrArg Prod.snd h) (by simp [pollList])
  | cons a rest ih =>
    intro s s' h
    rw [pollList_cons] at h
    rcases he : (cond s a).2.2 with _ | e0
    · rw [he] at h
      by_cases hd : (cond s a).2.1
      · exact ⟨a, List.mem_cons_self a rest, hP s a hd⟩
      · rw [if_neg hd] at h
        obtain ⟨b, hb, hPb⟩ := ih (cond s a).1 s' h
        exact ⟨b, List.mem_cons_of_mem a hb, hPb⟩
    · rw [he] at h
      exact absurd (congrArg Prod.snd h) (by simp)

lemma pollList_success_post {σ α : Type} (cond : σ → α → σ × Bool × Option K8sErr)
    (Q : σ → Prop)
    (hQ : ∀ s a, (cond s a).2 = (true, (none : Option K8sErr)) → Q (cond s a).1) :
    ∀ (l : List α) (s s' : σ),
      pollList cond s l = (s', none) → Q s' := by
  intro l
  induction l with
  | nil =>
    intro s s' h
    exact absurd (congrArg Prod.snd h) (by simp [pollList])
  | cons a rest ih =>
    intro s s' h
    rw [pollList_cons] at h
    rcases he : (cond s a).2.2 with _ | e0
    · rw [he] at h
      by_cases hd : (cond s a).2.1
      · rw [if_pos hd] at h
        have h1 : (cond s a).1 = s' := (Prod.mk.injEq _ _ _ _ ▸ h).1
        have : (cond s a).2 = (true, (none : Option K8sErr)) := by
          have := Prod.mk.eta (p := (cond s a).2)
          rw [← this, hd, he]
        exact h1 ▸ hQ s a this
      · rw [if_neg hd] at h
        exact ih (cond s a).1 s' h
    · rw [he] at h
      exact absurd (congrArg Prod.snd h) (by simp)

lemma drainLoop_completed (count : Nat) :
    ∀ (sigs : List DrainSig) (i n : Nat),
      drainLoop count i sigs = DrainResult.completed n → n = count * 2 := by
  intro sigs
  induction sigs with
  | nil => intro i n h; exact absurd h (by simp [drainLoop])
  | cons s rest ih =>
    intro i n h
    match s with
    | DrainSig.deployErr e =>
      rw [drainLoop] at h
      by_cases ha : isAlreadyExists e
      · rw [if_pos ha] at h
        by_cases hb : i = count * 2
        · rw [if_pos hb] at h
          cases h; omega
        · rw [if_neg hb] at h
          exact ih i n h
      · rw [if_neg ha] at h
        exact absurd h (by simp)
    | DrainSig.cleanErr e =>
      rw [drainLoop] at h
      by_cases ha : isNotFound e
      · rw [if_pos ha] at h
        by_cases hb : i = count * 2
        · rw [if_pos hb] at h
          cases h; omega
        · rw [if_neg hb] at h
          exact ih i n h
      · rw [if_neg ha] at h
        exact absurd h (by simp)
    | DrainSig.done =>
      rw [drainLoop] at h
      by_cases hb : i + 1 = count * 2
      · rw [if_pos hb] at h
        cases h; omega
      · rw [if_neg hb] at h
        exact ih (i + 1) n h

/-- Attempt on which Pvc.WaitCreate keeps polling: the Get succeeded and
the reported phase is not Bound. -/
def pvcNotYet (a : Nat × Except K8sErr PvcPhase) : Bool :=
  match a.2 with
  | Except.ok PvcPhase.bound => false
  | Except.ok _ => true
  | Except.error _ => false

/-- Attempt on which Pod.WaitCreate keeps polling: the Get succeeded and
no Ready condition has status True. -/
def podNotYet (a : Nat × Except K8sErr (List PodCondition)) : Bool :=
  match a.2 with
  | Except.ok conds => !(conds.any readyTrue)
  | Except.error _ => false

/-- The End and Duration fields have been stamped consistently: End is
set, and Duration is its distance to Start. -/
def timingSet (t : Timing) : Prop :=
  t.stop.isSome = true ∧ t.duration = some (t.stop.getD 0 - t.start)

lemma pvcWaitCreateCond_continue (s : Pvc) (a : Nat × Except K8sErr PvcPhase)
    (h : pvcNotYet a = true) : pvcWaitCreateCond s a = (s, false, none) := by
  rcases a with ⟨t, r⟩
  rcases r with e | ph
  · exact absurd h (by simp [pvcNotYet])
  · cases ph <;> simp_all [pvcNotYet, pvcWaitCreateCond]

lemma podWaitCreateCond_continue (s : Pod) (a : Nat × Except K8sErr (List PodCondition))
    (h : podNotYet a = true) : podWaitCreateCond s a = (s, false, none) := by
  rcases a with ⟨t, r⟩
  rcases r with e | conds
  · exact absurd h (by simp [podNotYet])
  · simp_all [podNotYet, podWaitCreateCond]

lemma pvcWaitCreateCond_frame (s : Pvc) (a : Nat × Except K8sErr PvcPhase)
    (h : (pvcWaitCreateCond s a).2 ≠ (true, (none : Option K8sErr))) :
    (pvcWaitCreateCond s a).1 = s := by
  rcases a with ⟨t, r⟩
  rcases r with e | ph
  · rfl
  · by_cases hb : ph = PvcPhase.bound
    · exact absurd (by simp [pvcWaitCreateCond, hb]) h
    · simp [pvcWaitCreateCond, hb]

lemma podWaitCreateCond_frame (s : Pod) (a : Nat × Except K8sErr (List PodCondition))
    (h : (podWaitCreateCond s a).2 ≠ (true, (none : Option K8sErr))) :
    (podWaitCreateCond s a).1 = s := by
  rcases a with ⟨t, r⟩
  rcases r with e | conds
  · rfl
  · by_cases hb : conds.any readyTrue
    · exact absurd (by simp [podWaitCreateCond, hb]) h
    · simp [podWaitCreateCond, hb]

lemma pvcWaitDeleteCond_frame (s : Pvc) (a : Nat × Option K8sErr)
    (h : (pvcWaitDeleteCond s a).2 ≠ (true, (none : Option K8sErr))) :
    (pvcWaitDeleteCond s a).1 = s := by
  rcases a with ⟨t, r⟩
  rcases r with _ | e
  · rfl
  · by_cases hb : isNotFound e
    · exact absurd (by simp [pvcWaitDeleteCond, hb]) h
    · simp [pvcWaitDeleteCond, hb]

lemma podWaitDeleteCond_frame (s : Pod) (a : Nat × Option K8sErr)
    (h : (podWaitDeleteCond s a).2 ≠ (true, (none : Option K8sErr))) :
    (podWaitDeleteCond s a).1 = s := by
  rcases a with ⟨t, r⟩
  rcases r with _ | e
  · rfl
  · by_cases hb : isNotFound e
    · exact absurd (by simp [podWaitDeleteCond, hb]) h
    · simp [podWaitDeleteCond, hb]

lemma pvcWaitCreateCond_post (s : Pvc) (a : Nat × Except K8sErr PvcPhase)
    (h : (pvcWaitCreateCond s a).2 = (true, (none : Option K8sErr))) :
    timingSet (pvcWaitCreateCond s a).1.timings := by
  rcases a with ⟨t, r⟩
  rcases r with e | ph
  · exact absurd h (by simp [pvcWaitCreateCond])
  · by_cases hb : ph = PvcPhase.bound
    · simp [pvcWaitCreateCond, hb, timingSet]
    · exact absurd h (by simp [pvcWaitCreateCond, hb])

lemma podWaitCreateCond_post (s : Pod) (a : Nat × Except K8sErr (List PodCondition))
    (h : (podWaitCreateCond s a).2 = (true, (none : Option K8sErr))) :
    timingSet (podWaitCreateCond s a).1.timings := by
  rcases a with ⟨t, r⟩
  rcases r with e | conds
  · exact absurd h (by simp [podWaitCreateCond])
  · by_cases hb : conds.any readyTrue
    · simp [podWaitCreateCond, hb, timingSet]
    · exact absurd h (by simp [podWaitCreateCond, hb])

lemma pvcWaitDeleteCond_post (s : Pvc) (a : Nat × Option K8sErr)
    (h : (pvcWaitDeleteCond s a).2 = (true, (none : Option K8sErr))) :
    timingSet (pvcWaitDeleteCond s a).1.timings := by
  rcases a with ⟨t, r⟩
  rcases r with _ | e
  · exact absurd h (by simp [pvcWaitDeleteCond])
  · by_cases hb : isNotFound e
    · simp [pvcWaitDeleteCond, hb, timingSet]
    · exact absurd h (by simp [pvcWaitDeleteCond, hb])

lemma podWaitDeleteCond_post (s : Pod) (a : Nat × Option K8sErr)
    (h : (podWaitDeleteCond s a).2 = (true, (none : Option K8sErr))) :
    timingSet (podWaitDeleteCond s a).1.timings := by
  rcases a with ⟨t, r⟩
  rcases r with _ | e
  · exact absurd h (by simp [podWaitDeleteCond])
  · by_cases hb : isNotFound e
    · simp [podWaitDeleteCond, hb, timingSet]
    · exact absurd h (by simp [podWaitDeleteCond, hb])

lemma pvcWaitCreateCond_success_mem (s : Pvc) (a : Nat × Except K8sErr PvcPhase)
    (h : (pvcWaitCreateCond s a).2.1 = true) : a.2 = Except.ok PvcPhase.bound := by
  rcases a with ⟨t, r⟩
  rcases r with e | ph
  · exact absurd h (by simp [pvcWaitCreateCond])
  · by_cases hb : ph = PvcPhase.bound
    · simp [hb]
    · exact absurd h (by simp [pvcWaitCreateCond, hb])

lemma podWaitCreateCond_success_mem (s : Pod) (a : Nat × Except K8sErr (List PodCondition))
    (h : (podWaitCreateCond s a).2.1 = true) :
    ∃ conds, a.2 = Except.ok conds ∧ conds.any readyTrue = true := by
  rcases a with ⟨t, r⟩
  rcases r with e | conds
  · exact absurd h (by simp [podWaitCreateCond])
  · by_cases hb : conds.any readyTrue
    · exact ⟨conds, rfl, hb⟩
    · exact absurd h (by simp [podWaitCreateCond, hb])

lemma pvcList_map_name (ns pfx size sc : String) :
    ∀ n, (pvcList ns pfx size sc n).map Pvc.name = nameList pfx n := by
  intro n
  induction n with
  | zero => rfl
  | succ n ih => simp [pvcList, nameList, pairPvc, ih]

lemma podList_map_name (ns pfx image : String) :
    ∀ n, (podList ns pfx image n).map Pod.name = nameList pfx n := by
  intro n
  induction n with
  | zero => rfl
  | succ n ih => simp [podList, nameList, pairPod, ih]

lemma mem_nameList (pfx : String) :
    ∀ n s, s ∈ nameList pfx n → ∃ i, 1 ≤ i ∧ i ≤ n ∧ s = mkName pfx i := by
  intro n
  induction n with
  | zero => intro s hs; exact absurd hs (by simp [nameList])
  | succ n ih =>
    intro s hs
    rw [nameList, List.mem_append] at hs
    rcases hs with hs | hs
    · obtain ⟨i, h1, h2, h3⟩ := ih s hs
      exact ⟨i, h1, by omega, h3⟩
    · rw [List.mem_singleton] at hs
      exact ⟨n + 1, by omega, le_rfl, hs⟩

lemma nameList_nodup (pfx : String) : ∀ n, (nameList pfx n).Nodup := by
  intro n
  induction n with
  | zero => exact List.nodup_nil
  | succ n ih =>
    rw [nameList, List.nodup_append]
    refine ⟨ih, List.nodup_singleton _, ?_⟩
    intro s hs hmem
    rw [List.mem_singleton] at hmem
    obtain ⟨i, h1, h2, h3⟩ := mem_nameList pfx n s hs
    rw [hmem] at h3
    have := mkName_inj pfx h3
    omega

lemma launchTrace_decomp (ns pfx size sc image : String) :
    ∀ n i, 1 ≤ i → i ≤ n →
      launchTrace ns pfx size sc image n
        = launchTrace ns pfx size sc image (i - 1)
          ++ pairEvents ns pfx size sc image i
          ++ traceTail ns pfx size sc image i (n - i) := by
  intro n
  induction n with
  | zero => intro i h1 h2; omega
  | succ n ih =>
    intro i h1 h2
    by_cases hi : i = n + 1
    · have hm : i - 1 = n := by omega
      have hz : n + 1 - i = 0 := by omega
      rw [hm, hz, hi]
      simp [launchTrace, traceTail]
    · have hle : i ≤ n := by omega
      have h1' : n + 1 - i = (n - i) + 1 := by omega
      have h2' : i + (n - i + 1) = n + 1 := by omega
      show launchTrace ns pfx size sc image n
            ++ pairEvents ns pfx size sc image (n + 1) = _
      rw [ih i h1 hle, h1', traceTail, h2', List.append_assoc, List.append_assoc]

lemma pollList_snd_frame {σ α : Type} (cond : σ → α → σ × Bool × Option K8sErr)
    (hframe : ∀ s a, (cond s a).2 ≠ (true, (none : Option K8sErr)) → (cond s a).1 = s)
    (l : List α) (s : σ) (e : K8sErr) (h : (pollList cond s l).2 = some e) :
    (pollList cond s l).1 = s := by
  have hx := Prod.mk.eta (p := pollList cond s l)
  rw [h] at hx
  exact pollList_frame cond hframe l s _ e hx.symm

lemma pollList_snd_post {σ α : Type} (cond : σ → α → σ × Bool × Option K8sErr)
    (Q : σ → Prop)
    (hQ : ∀ s a, (cond s a).2 = (true, (none : Option K8sErr)) → Q (cond s a).1)
    (l : List α) (s : σ) (h : (pollList cond s l).2 = none) :
    Q (pollList cond s l).1 := by
  have hx := Prod.mk.eta (p := pollList cond s l)
  rw [h] at hx
  exact pollList_success_post cond Q hQ l s _ hx.symm

lemma pollList_snd_mem {σ α : Type} (cond : σ → α → σ × Bool × Option K8sErr)
    (P : α → Prop) (hP : ∀ s a, (cond s a).2.1 = true → P a)
    (l : List α) (s : σ) (h : (pollList cond s l).2 = none) :
    ∃ a, a ∈ l ∧ P a := by
  have hx := Prod.mk.eta (p := pollList cond s l)
  rw [h] at hx
  exact pollList_success_mem cond P hP l s _ hx.symm

/-- C1: in the drain loop, a deploy (Provision) error lets the run
continue exactly when it classifies as AlreadyExists, a clean
(Decommission) error exactly when it classifies as NotFound, and every
other error panics (aborts the run) at once. -/
theorem drain_tolerates_exactly_classified_errors
    (count i : Nat) (e : K8sErr) (rest : List DrainSig) :
    drainLoop count i (DrainSig.deployErr e :: rest)
      = (if isAlreadyExists e then
          (if i = count * 2 then DrainResult.completed i else drainLoop count i rest)
        else DrainResult.panicked e i)
    ∧ drainLoop count i (DrainSig.cleanErr e :: rest)
      = (if isNotFound e then
          (if i = count * 2 then DrainResult.completed i else drainLoop count i rest)
        else DrainResult.panicked e i) :=
  ⟨rfl, rfl⟩

/-- C2 counterexample: with count = 1, a fatal (intolerable) deploy error
makes the drain loop panic after zero done signals even though both done
signals are still pending, so the process exits before draining the
2 times count completions the claim requires. -/
theorem fatal_error_exits_before_draining :
    drain 1 [DrainSig.deployErr K8sErr.backend, DrainSig.done, DrainSig.done]
      = DrainResult.panicked K8sErr.backend 0 ∧ (0 : Nat) ≠ 1 * 2 := by
  decide

/-- C2 amended: the drain loop collects exactly 2 times count done
signals only when it exits normally; when a fatal error is observed it
panics immediately, exiting with however many done signals have arrived
so far. -/
theorem drain_completes_only_with_all_done_signals :
    (∀ (count : Nat) (sigs : List DrainSig) (n : Nat),
      drain count sigs = DrainResult.completed n → n = count * 2)
    ∧ (∀ (count i : Nat) (e : K8sErr) (rest : List DrainSig),
        isAlreadyExists e = false →
        drainLoop count i (DrainSig.deployErr e :: rest) = DrainResult.panicked e i)
    ∧ (∀ (count i : Nat) (e : K8sErr) (rest : List DrainSig),
        isNotFound e = false →
        drainLoop count i (DrainSig.cleanErr e :: rest) = DrainResult.panicked e i) := by
  refine ⟨fun count sigs n h => drainLoop_completed count sigs 0 n h,
    fun count i e rest h => ?_, fun count i e rest h => ?_⟩
  · simp [drainLoop, h]
  · simp [drainLoop, h]

/-- Witness for the amended C2 theorem at count = 1 and at a concrete
fatal interleaving. -/
theorem drain_completes_only_with_all_done_signals_witness :
    drain 1 [DrainSig.done, DrainSig.done] = DrainResult.completed 2
    ∧ (2 : Nat) = 1 * 2
    ∧ drainLoop 1 0 [DrainSig.deployErr K8sErr.backend]
        = DrainResult.panicked K8sErr.backend 0 :=
  ⟨by decide,
   drain_completes_only_with_all_done_signals.1 1 [DrainSig.done, DrainSig.done] 2 (by decide),
   drain_completes_only_with_all_done_signals.2.1 1 0 K8sErr.backend [] (by decide)⟩

/-- C3: with count = 0 the launch loop builds no records and launches no
workflows (the slices and the trace are empty, as the claim says), but
the drain loop performs a blocking select before its first exit check, so
with no goroutine ever sending a signal the process blocks forever in the
drain loop instead of returning successfully immediately. -/
theorem count_zero_blocks_in_drain_loop :
    drain 0 [] = DrainResult.blocked 0
    ∧ pvcList "default" "shiny-potato" "100m" "sc" 0 = []
    ∧ podList "default" "shiny-potato" "alpine" 0 = []
    ∧ launchTrace "default" "shiny-potato" "100m" "sc" "alpine" 0 = [] :=
  ⟨rfl, rfl, rfl, rfl⟩

/-- C4 counterexample: a Deploy workflow whose Create fails with
AlreadyExists and whose WaitCreate then times out sends two errors on the
error channel, not exactly one, while still sending one done. -/
theorem failed_workflow_can_send_two_errors :
    (deployPvc { name := "shiny-potato-0001", ns := "default", size := "100m", storageClass := "sc" } 0 (Except.error K8sErr.alreadyExists) []).2
      = [Sig.err K8sErr.alreadyExists, Sig.err K8sErr.deadlineExceeded, Sig.done]
    ∧ errCount ((deployPvc { name := "shiny-potato-0001", ns := "default", size := "100m", storageClass := "sc" } 0 (Except.error K8sErr.alreadyExists) []).2) = 2 := by
  decide

/-- C4 amended: every Deploy or Clean workflow sends exactly one done
signal, and sends one error per failing step, hence between zero and two
errors rather than exactly one on failure. -/
theorem workflow_one_done_one_error_per_failed_step :
    ∀ (e1 e2 : Option K8sErr),
      doneCount (deploySignals e1 e2) = 1
      ∧ doneCount (cleanSignals e1 e2) = 1
      ∧ errCount (deploySignals e1 e2)
          = (match e1 with | some _ => 1 | none => 0)
            + (match e2 with | some _ => 1 | none => 0)
      ∧ errCount (cleanSignals e1 e2)
          = (match e1 with | some _ => 1 | none => 0)
            + (match e2 with | some _ => 1 | none => 0) := by
  intro e1 e2
  rcases e1 with _ | a <;> rcases e2 with _ | b <;> exact ⟨rfl, rfl, rfl, rfl⟩

/-- C5 counterexample: Delete propagates a NotFound deletion error as its
own error for both resource variants; the claim that a not-found response
does not make Delete return an error fails. -/
theorem delete_returns_not_found_error :
    (Pvc.delete { name := "shiny-potato-0001", ns := "default", size := "100m", storageClass := "sc" } 3 (Except.error K8sErr.notFound)).2 = some K8sErr.notFound
    ∧ (Pod.delete { name := "shiny-potato-0001", ns := "default", image := "alpine" } 3 (Except.error K8sErr.notFound)).2 = some K8sErr.notFound
    ∧ some K8sErr.notFound ≠ (none : Option K8sErr) := by
  decide

/-- C5 amended: Delete returns an error exactly when the backend deletion
call fails, with NotFound included; tolerance of NotFound during clean
runs is applied centrally by the drain loop, which absorbs clean errors
classifying as NotFound. -/
theorem delete_propagates_all_backend_errors :
    ∀ (p : Pvc) (q : Pod) (now : Nat) (e : K8sErr),
      (Pvc.delete p now (Except.error e)).2 = some e
      ∧ (Pvc.delete p now (Except.ok ())).2 = none
      ∧ (Pod.delete q now (Except.error e)).2 = some e
      ∧ (Pod.delete q now (Except.ok ())).2 = none
      ∧ (∀ (count i : Nat) (rest : List DrainSig),
          drainLoop count i (DrainSig.cleanErr K8sErr.notFound :: rest)
            = (if i = count * 2 then DrainResult.completed i
               else drainLoop count i rest)) := by
  intro p q now e
  exact ⟨rfl, rfl, rfl, rfl, fun count i rest => rfl⟩

/-- C6: the launch loop gives pair i the name of the Sprintf format
"%v-%04d" (mkName), the Pvc slice and the Pod slice carry the identical
name sequence, the names of a run are pairwise distinct, and the trace of
the loop places the construction of pair i (its build event) immediately
before the two go statements launching that pair, after the events of
pairs 1..i-1 and before those of pairs i+1..n. -/
theorem pair_names_unique_shared_and_built_before_launch
    (ns pfx size sc image : String) (n : Nat) :
    (pvcList ns pfx size sc n).map Pvc.name = nameList pfx n
    ∧ (podList ns pfx image n).map Pod.name = nameList pfx n
    ∧ (nameList pfx n).Nodup
    ∧ (∀ i, 1 ≤ i → i ≤ n →
        launchTrace ns pfx size sc image n
          = launchTrace ns pfx size sc image (i - 1)
            ++ pairEvents ns pfx size sc image i
            ++ traceTail ns pfx size sc image i (n - i)) :=
  ⟨pvcList_map_name ns pfx size sc n, podList_map_name ns pfx image n,
   nameList_nodup pfx n,
   fun i h1 h2 => launchTrace_decomp ns pfx size sc image n i h1 h2⟩

/-- Witness for C6 at n = 2, i = 1 with concrete run parameters. -/
theorem pair_names_unique_shared_and_built_before_launch_witness :
    launchTrace "default" "shiny-potato" "100m" "sc" "alpine" 2
      = launchTrace "default" "shiny-potato" "100m" "sc" "alpine" 0
        ++ pairEvents "default" "shiny-potato" "100m" "sc" "alpine" 1
        ++ traceTail "default" "shiny-potato" "100m" "sc" "alpine" 1 1 :=
  (pair_names_unique_shared_and_built_before_launch
    "default" "shiny-potato" "100m" "sc" "alpine" 2).2.2.2 1 (by decide) (by decide)

/-- C7: whenever a wait phase of either resource fails (backend error or
deadline exceeded), the returned resource record equals the input record;
in particular Timing.End and Timing.Duration are written only in the
branch where the wait condition succeeds. -/
theorem wait_failure_leaves_timings_unchanged :
    (∀ (p : Pvc) (attempts : List (Nat × Except K8sErr PvcPhase)) (e : K8sErr),
      (Pvc.waitCreate p attempts).2 = some e → (Pvc.waitCreate p attempts).1 = p)
    ∧ (∀ (p : Pvc) (attempts : List (Nat × Option K8sErr)) (e : K8sErr),
      (Pvc.waitDelete p attempts).2 = some e → (Pvc.waitDelete p attempts).1 = p)
    ∧ (∀ (p : Pod) (attempts : List (Nat × Except K8sErr (List PodCondition))) (e : K8sErr),
      (Pod.waitCreate p attempts).2 = some e → (Pod.waitCreate p attempts).1 = p)
    ∧ (∀ (p : Pod) (attempts : List (Nat × Option K8sErr)) (e : K8sErr),
      (Pod.waitDelete p attempts).2 = some e → (Pod.waitDelete p attempts).1 = p) :=
  ⟨fun p attempts e h => pollList_snd_frame _ pvcWaitCreateCond_frame attempts p e h,
   fun p attempts e h => pollList_snd_frame _ pvcWaitDeleteCond_frame attempts p e h,
   fun p attempts e h => pollList_snd_frame _ podWaitCreateCond_frame attempts p e h,
   fun p attempts e h => pollList_snd_frame _ podWaitDeleteCond_frame attempts p e h⟩

/-- Witness for C7: a failing Pvc.WaitCreate returns the record
unchanged. -/
theorem wait_failure_leaves_timings_unchanged_witness :
    (Pvc.waitCreate { name := "shiny-potato-0001", ns := "default", size := "100m", storageClass := "sc" } [(0, Except.error K8sErr.backend)]).2 = some K8sErr.backend
    ∧ (Pvc.waitCreate { name := "shiny-potato-0001", ns := "default", size := "100m", storageClass := "sc" } [(0, Except.error K8sErr.backend)]).1
        = { name := "shiny-potato-0001", ns := "default", size := "100m", storageClass := "sc" } :=
  ⟨by decide,
   wait_failure_leaves_timings_unchanged.1
     { name := "shiny-potato-0001", ns := "default", size := "100m", storageClass := "sc" }
     [(0, Except.error K8sErr.backend)] K8sErr.backend (by decide)⟩

/-- C8: WaitCreate polls the status fetch; while attempts keep reporting
a not-yet-ready status it continues; the first fetch error is returned at
once as the result (no retry on error); exhausting the attempts before
the deadline yields deadlineExceeded; a Bound phase (Pvc) or a Ready
condition with status True (Pod) ends the wait successfully, and success
happens only if such an attempt is present. -/
theorem wait_create_polls_until_bound_or_ready :
    (∀ (p : Pvc) (oks : List (Nat × Except K8sErr PvcPhase)) (t : Nat) (e : K8sErr)
       (rest : List (Nat × Except K8sErr PvcPhase)),
      (∀ a ∈ oks, pvcNotYet a = true) →
      Pvc.waitCreate p (oks ++ (t, Except.error e) :: rest) = (p, some e))
    ∧ (∀ (p : Pvc) (oks : List (Nat × Except K8sErr PvcPhase)),
      (∀ a ∈ oks, pvcNotYet a = true) →
      Pvc.waitCreate p oks = (p, some K8sErr.deadlineExceeded))
    ∧ (∀ (p : Pvc) (oks : List (Nat × Except K8sErr PvcPhase)) (t : Nat)
        (rest : List (Nat × Except K8sErr PvcPhase)),
      (∀ a ∈ oks, pvcNotYet a = true) →
      (Pvc.waitCreate p (oks ++ (t, Except.ok PvcPhase.bound) :: rest)).2 = none)
    ∧ (∀ (p : Pvc) (attempts : List (Nat × Except K8sErr PvcPhase)),
      (Pvc.waitCreate p attempts).2 = none →
      ∃ a, a ∈ attempts ∧ a.2 = Except.ok PvcPhase.bound)
    ∧ (∀ (p : Pod) (oks : List (Nat × Except K8sErr (List PodCondition))) (t : Nat)
        (e : K8sErr) (rest : List (Nat × Except K8sErr (List PodCondition))),
      (∀ a ∈ oks, podNotYet a = true) →
      Pod.waitCreate p (oks ++ (t, Except.error e) :: rest) = (p, some e))
    ∧ (∀ (p : Pod) (oks : List (Nat × Except K8sErr (List PodCondition))),
      (∀ a ∈ oks, podNotYet a = true) →
      Pod.waitCreate p oks = (p, some K8sErr.deadlineExceeded))
    ∧ (∀ (p : Pod) (oks : List (Nat × Except K8sErr (List PodCondition))) (t : Nat)
        (conds : List PodCondition) (rest : List (Nat × Except K8sErr (List PodCondition))),
      (∀ a ∈ oks, podNotYet a = true) → conds.any readyTrue = true →
      (Pod.waitCreate p (oks ++ (t, Except.ok conds) :: rest)).2 = none)
    ∧ (∀ (p : Pod) (attempts : List (Nat × Except K8sErr (List PodCondition))),
      (Pod.waitCreate p attempts).2 = none →
      ∃ a, a ∈ attempts ∧ ∃ conds, a.2 = Except.ok conds ∧ conds.any readyTrue = true) := by
  refine ⟨?_, ?_, ?_, ?_, ?_, ?_, ?_, ?_⟩
  · intro p oks t e rest hall
    show pollList pvcWaitCreateCond p (oks ++ (t, Except.error e) :: rest) = (p, some e)
    rw [pollList_skip pvcWaitCreateCond pvcNotYet pvcWaitCreateCond_continue oks p _ hall]
    rfl
  · intro p oks hall
    have h0 := pollList_skip pvcWaitCreateCond pvcNotYet pvcWaitCreateCond_continue oks p [] hall
    rw [List.append_nil] at h0
    show pollList pvcWaitCreateCond p oks = (p, some K8sErr.deadlineExceeded)
    rw [h0]
    rfl
  · intro p oks t rest hall
    show (pollList pvcWaitCreateCond p (oks ++ (t, Except.ok PvcPhase.bound) :: rest)).2 = none
    rw [pollList_skip pvcWaitCreateCond pvcNotYet pvcWaitCreateCond_continue oks p _ hall]
    rfl
  · intro p attempts h
    exact pollList_snd_mem pvcWaitCreateCond (fun a => a.2 = Except.ok PvcPhase.bound)
      (fun s a hx => pvcWaitCreateCond_success_mem s a hx) attempts p h
  · intro p oks t e rest hall
    show pollList podWaitCreateCond p (oks ++ (t, Except.error e) :: rest) = (p, some e)
    rw [pollList_skip podWaitCreateCond podNotYet podWaitCreateCond_continue oks p _ hall]
    rfl
  · intro p oks hall
    have h0 := pollList_skip podWaitCreateCond podNotYet podWaitCreateCond_continue oks p [] hall
    rw [List.append_nil] at h0
    show pollList podWaitCreateCond p oks = (p, some K8sErr.deadlineExceeded)
    rw [h0]
    rfl
  · intro p oks t conds rest hall hready
    show (pollList podWaitCreateCond p (oks ++ (t, Except.ok conds) :: rest)).2 = none
    rw [pollList_skip podWaitCreateCond podNotYet podWaitCreateCond_continue oks p _ hall,
      pollList_cons]
    simp [podWaitCreateCond, hready]
  · intro p attempts h
    exact pollList_snd_mem podWaitCreateCond
      (fun a => ∃ conds, a.2 = Except.ok conds ∧ conds.any readyTrue = true)
      (fun s a hx => podWaitCreateCond_success_mem s a hx) attempts p h

/-- Witness for C8: a concrete error propagation and a concrete success
after one pending attempt. -/
theorem wait_create_polls_until_bound_or_ready_witness :
    Pvc.waitCreate { name := "shiny-potato-0001", ns := "default", size := "100m", storageClass := "sc" } [(0, Except.ok PvcPhase.pending), (4, Except.error K8sErr.backend)]
      = ({ name := "shiny-potato-0001", ns := "default", size := "100m", storageClass := "sc" }, some K8sErr.backend)
    ∧ (Pvc.waitCreate { name := "shiny-potato-0001", ns := "default", size := "100m", storageClass := "sc" } [(2, Except.ok PvcPhase.pending), (9, Except.ok PvcPhase.bound)]).2 = none :=
  ⟨wait_create_polls_until_bound_or_ready.1
     { name := "shiny-potato-0001", ns := "default", size := "100m", storageClass := "sc" }
     [(0, Except.ok PvcPhase.pending)] 4 K8sErr.backend [] (by decide),
   wait_create_polls_until_bound_or_ready.2.2.1
     { name := "shiny-potato-0001", ns := "default", size := "100m", storageClass := "sc" }
     [(2, Except.ok PvcPhase.pending)] 9 [] (by decide)⟩

/-- C9: whenever a wait phase of either resource completes successfully,
the stamped Timing has End set and Duration equal to End minus Start. -/
theorem duration_equals_end_minus_start_on_success :
    (∀ (p : Pvc) (attempts : List (Nat × Except K8sErr PvcPhase)),
      (Pvc.waitCreate p attempts).2 = none →
      timingSet (Pvc.waitCreate p attempts).1.timings)
    ∧ (∀ (p : Pvc) (attempts : List (Nat × Option K8sErr)),
      (Pvc.waitDelete p attempts).2 = none →
      timingSet (Pvc.waitDelete p attempts).1.timings)
    ∧ (∀ (p : Pod) (attempts : List (Nat × Except K8sErr (List PodCondition))),
      (Pod.waitCreate p attempts).2 = none →
      timingSet (Pod.waitCreate p attempts).1.timings)
    ∧ (∀ (p : Pod) (attempts : List (Nat × Option K8sErr)),
      (Pod.waitDelete p attempts).2 = none →
      timingSet (Pod.waitDelete p attempts).1.timings) :=
  ⟨fun p attempts h => pollList_snd_post _ (fun q => timingSet q.timings)
     pvcWaitCreateCond_post attempts p h,
   fun p attempts h => pollList_snd_post _ (fun q => timingSet q.timings)
     pvcWaitDeleteCond_post attempts p h,
   fun p attempts h => pollList_snd_post _ (fun q => timingSet q.timings)
     podWaitCreateCond_post attempts p h,
   fun p attempts h => pollList_snd_post _ (fun q => timingSet q.timings)
     podWaitDeleteCond_post attempts p h⟩

/-- Witness for C9: a Pvc whose WaitCreate succeeds at instant 7 has End
set and Duration equal to End minus Start. -/
theorem duration_equals_end_minus_start_on_success_witness :
    (Pvc.waitCreate { name := "shiny-potato-0001", ns := "default", size := "100m", storageClass := "sc" } [(7, Except.ok PvcPhase.bound)]).2 = none
    ∧ timingSet (Pvc.waitCreate { name := "shiny-potato-0001", ns := "default", size := "100m", storageClass := "sc" } [(7, Except.ok PvcPhase.bound)]).1.timings :=
  ⟨by decide,
   duration_equals_end_minus_start_on_success.1
     { name := "shiny-potato-0001", ns := "default", size := "100m", storageClass := "sc" }
     [(7, Except.ok PvcPhase.bound)] (by decide)⟩

/-- C10: Create and Delete of both variants overwrite Timing.Start with
the current instant before the backend call is issued, for every backend
outcome including failure, while leaving End and Duration untouched. -/
theorem create_and_delete_always_stamp_start :
    ∀ (p : Pvc) (q : Pod) (now : Nat) (r : Except K8sErr Unit),
      (Pvc.create p now r).1.timings.start = now
      ∧ (Pvc.create p now r).1.timings.stop = p.timings.stop
      ∧ (Pvc.create p now r).1.timings.duration = p.timings.duration
      ∧ (Pvc.delete p now r).1.timings.start = now
      ∧ (Pvc.delete p now r).1.timings.stop = p.timings.stop
      ∧ (Pvc.delete p now r).1.timings.duration = p.timings.duration
      ∧ (Pod.create q now r).1.timings.start = now
      ∧ (Pod.create q now r).1.timings.stop = q.timings.stop
      ∧ (Pod.create q now r).1.timings.duration = q.timings.duration
      ∧ (Pod.delete q now r).1.timings.start = now
      ∧ (Pod.delete q now r).1.timings.stop = q.timings.stop
      ∧ (Pod.delete q now r).1.timings.duration = q.timings.duration := by
  intro p q now r
  rcases r with e | u <;>
    exact ⟨rfl, rfl, rfl, rfl, rfl, rfl, rfl, rfl, rfl, rfl, rfl, rfl⟩
